import Mathlib

/-!
Shallow embedding of the timeline-export subsystem of TurboCut
(`src/main/exporters/davinci.ts`) together with theorems about it.

Conventions of the embedding:
* JavaScript numbers that only ever hold integral values (frame counts)
  are modelled as `Int`; fractional quantities (seconds, frame rates) as `Rat`.
* `Math.floor` on a real quotient of integers is `Int.fdiv`;
  the JavaScript `%` operator (remainder with the dividend's sign) is `Int.tmod`;
  `Math.round` is `jsRound` (floor of x + 1/2).
* JavaScript decimal rendering of an integer (`Number.prototype.toString`)
  is `intToChars`; `String.prototype.padStart` is `jsPadStart`.
* Fallible numeric parsing (`Number(...)` producing `NaN`) is modelled with
  `Option`: `none` stands for `NaN`.  Only the integer-literal fragment of
  JavaScript numeric syntax is modelled; timecode fields are always of that
  shape.
-/

namespace TurboCut

/-- JavaScript `Math.round`: floor of `q + 1/2`. -/
def jsRound (q : ℚ) : ℤ := ⌊q + 1 / 2⌋

/-- The character for a decimal digit `d < 10` (`'0'` … `'9'`). -/
def natDigitChar (d : ℕ) : Char := Char.ofNat (48 + d)

/-- Fuel-driven decimal rendering of a natural number, accumulating digits
on the right (mirrors the digit loop of JavaScript `toString(10)`). -/
def natToDigitsCore : ℕ → ℕ → List Char → List Char
  | 0, _, acc => acc
  | fuel + 1, n, acc =>
    if n < 10 then natDigitChar n :: acc
    else natToDigitsCore fuel (n / 10) (natDigitChar (n % 10) :: acc)

/-- Decimal digit string of a natural number. -/
def natDigits (n : ℕ) : List Char := natToDigitsCore (n + 1) n []

/-- JavaScript `Number.prototype.toString` for an integer value, as a
character list: an optional `'-'` sign followed by decimal digits. -/
def intToChars (n : ℤ) : List Char :=
  if n < 0 then '-' :: natDigits (-n).toNat else natDigits n.toNat

/-- JavaScript `String.prototype.padStart(width, c)`: left-pad with `c`
up to length `width` (characters view). -/
def jsPadStart (l : List Char) (width : ℕ) (c : Char) : List Char :=
  List.replicate (width - l.length) c ++ l

/-- The body of `framesToTimecode` after the `fps` binding: decompose a
frame count into `HH:MM:SS:FF` in base `fps`, each field zero-padded to
width 2. -/
def framesToTimecodeFps (frames fps : ℤ) : String :=
  let hours := Int.fdiv frames (3600 * fps)
  let minutes := Int.fdiv (Int.tmod frames (3600 * fps)) (60 * fps)
  let seconds := Int.fdiv (Int.tmod (Int.tmod frames (3600 * fps)) (60 * fps)) fps
  let frs := Int.tmod (Int.tmod (Int.tmod frames (3600 * fps)) (60 * fps)) fps
  String.mk
    (jsPadStart (intToChars hours) 2 '0' ++ ':' ::
      (jsPadStart (intToChars minutes) 2 '0' ++ ':' ::
        (jsPadStart (intToChars seconds) 2 '0' ++ ':' ::
          jsPadStart (intToChars frs) 2 '0')))

/-- `framesToTimecode` (davinci.ts, lines 9–27): round the frame rate to
the nearest integer (`fps`), then decompose the frame count in base `fps`. -/
def framesToTimecode (frames : ℤ) (frameRate : ℚ) : String :=
  framesToTimecodeFps frames (jsRound frameRate)

/-- `framesToSeconds` (davinci.ts, lines 29–32): `frames / frameRate`
rounded to one decimal place. -/
def framesToSeconds (frames : ℤ) (frameRate : ℚ) : ℚ :=
  (jsRound ((frames : ℚ) / frameRate * 10) : ℚ) / 10

/-- Separator class of the regex `/[:;]/` used by `timecodeToFrames`. -/
def isTcSep (c : Char) : Bool := c == ':' || c == ';'

/-- JavaScript `String.prototype.split(/[:;]/)` on the character list:
splits at every separator, keeping empty fields (`"".split` gives `[""]`). -/
def splitFields : List Char → List (List Char)
  | [] => [[]]
  | c :: cs =>
    if isTcSep c then [] :: splitFields cs
    else
      match splitFields cs with
      | [] => [[c]]
      | f :: rest => (c :: f) :: rest

/-- ASCII decimal digit test (the regex class `\d`). -/
def isDigitChar (c : Char) : Bool := decide (48 ≤ c.toNat) && decide (c.toNat ≤ 57)

/-- Numeric value of a digit character. -/
def digitVal (c : Char) : ℕ := c.toNat - 48

/-- Decimal value of a digit string. -/
def parseDigits (l : List Char) : ℕ := l.foldl (fun a c => 10 * a + digitVal c) 0

/-- JavaScript `Number(...)` on a timecode field, restricted to the
integer-literal fragment: `''` is `0`, an optional `'-'` sign followed by
digits is the signed value, anything else is `NaN` (`none`). -/
def jsNumber (l : List Char) : Option ℤ :=
  match l with
  | [] => some 0
  | c :: rest =>
    if c = '-' then
      if rest ≠ [] && rest.all isDigitChar then some (-(parseDigits rest : ℤ)) else none
    else if (c :: rest).all isDigitChar then some ((parseDigits (c :: rest) : ℤ)) else none

/-- `timecodeToFrames` (davinci.ts, lines 34–40): split on `:` or `;`,
parse the first four fields, and combine with the rounded frame rate.
`none` models the `NaN` outcome (a missing or unparseable field).  The
source's outer `Math.floor` is the identity on the integral result. -/
def timecodeToFrames (timecode : String) (frameRate : ℚ) : Option ℤ :=
  match (splitFields timecode.data).map jsNumber with
  | some hours :: some minutes :: some seconds :: some frames :: _ =>
    some ((hours * 3600 + minutes * 60 + seconds) * jsRound frameRate + frames)
  | _ => none

/-- The supported nominal frame rates (spec §3 FrameRate). -/
def supportedRates : List ℚ := [23.976, 24, 25, 29.97, 30, 50, 59.94, 60]

/-- `frameRateToFrameDuration` (davinci.ts, lines 42–55): fixed lookup
table from nominal rate to rational frame-duration string, defaulting to
the 23.976 entry. -/
def frameRateToFrameDuration (frameRate : ℚ) : String :=
  if frameRate = 23.976 then "1001/24000s"
  else if frameRate = 24 then "100/2400s"
  else if frameRate = 25 then "1/25s"
  else if frameRate = 29.97 then "1001/30000s"
  else if frameRate = 30 then "1/30s"
  else if frameRate = 50 then "1/50s"
  else if frameRate = 59.94 then "1001/60000s"
  else if frameRate = 60 then "1/60s"
  else "1001/24000s"

/-- A retained clip interval in seconds (`shared/types` `Clip`).
`end` is a Lean keyword, so the field is written `«end»`. -/
structure Clip where
  start : ℚ
  «end» : ℚ
deriving DecidableEq, Repr

/-- Source video metadata relevant to the exporters (`shared/types`
`VideoInfo`): absolute path and total duration in seconds. -/
structure VideoInfo where
  path : String
  duration : ℚ
deriving DecidableEq, Repr

/-! ### EDL generator (davinci.ts, lines 171–217) -/

/-- The source-start frame count computed for a clip inside
`generateEDL`'s loop: `Math.floor((clip.start + timecodeInSeconds) * frameRate)`.
Note it multiplies by the raw `frameRate`. -/
def srcStartFrames (clip : Clip) (timecodeInSeconds frameRate : ℚ) : ℤ :=
  ⌊(clip.start + timecodeInSeconds) * frameRate⌋

/-- The source-end frame count computed for a clip inside `generateEDL`'s
loop: `Math.floor((clip.end + timecodeInSeconds) * frameRate)`. -/
def srcEndFrames (clip : Clip) (timecodeInSeconds frameRate : ℚ) : ℤ :=
  ⌊(clip.«end» + timecodeInSeconds) * frameRate⌋

/-- The record-end frame count computed inside `generateEDL`'s loop:
`Math.floor(recordStartFrames + (clip.end - clip.start) * frameRate)`. -/
def recEndFrames (clip : Clip) (recordStartFrames : ℤ) (frameRate : ℚ) : ℤ :=
  ⌊(recordStartFrames : ℚ) + (clip.«end» - clip.start) * frameRate⌋

/-- One cut record of the EDL body (the string appended per iteration of
`generateEDL`'s `forEach`): edit number padded to 3 digits, the literal
`AX`/`V`/`C` columns, the four timecodes, and the clip-name comment line. -/
def edlRecordString (sourceClipName : String) (frameRate : ℚ)
    (index : ℕ) (srcStart srcEnd recStart recEnd : ℤ) : String :=
  String.mk (jsPadStart (intToChars (index + 1 : ℕ)) 3 '0') ++
    "  AX       V     C        " ++
    framesToTimecode srcStart frameRate ++ " " ++
    framesToTimecode srcEnd frameRate ++ " " ++
    framesToTimecode recStart frameRate ++ " " ++
    framesToTimecode recEnd frameRate ++ "\n" ++
    "* FROM CLIP NAME: " ++ sourceClipName ++ "\n\n"

/-- The body of `generateEDL`: state-passing form of the `forEach` loop,
carrying the 0-based `index` and the `recordStartFrames` cursor, and
producing the string appended for each clip. -/
def edlRecordList (sourceClipName : String) :
    List Clip → ℚ → ℚ → ℕ → ℤ → List String
  | [], _, _, _, _ => []
  | clip :: rest, frameRate, timecodeInSeconds, index, recordStartFrames =>
    edlRecordString sourceClipName frameRate index
        (srcStartFrames clip timecodeInSeconds frameRate)
        (srcEndFrames clip timecodeInSeconds frameRate)
        recordStartFrames
        (recEndFrames clip recordStartFrames frameRate) ::
      edlRecordList sourceClipName rest frameRate timecodeInSeconds (index + 1)
        (recEndFrames clip recordStartFrames frameRate)

/-- `generateEDL` (davinci.ts, lines 171–217): the header
`TITLE: <title>` / `FCM: NON-DROP FRAME`, a blank line, then one cut
record per clip. -/
def generateEDL (title sourceClipName : String) (clips : List Clip)
    (frameRate timecodeInSeconds : ℚ) : String :=
  "TITLE: " ++ title ++ "\nFCM: NON-DROP FRAME\n\n" ++
    String.join (edlRecordList sourceClipName clips frameRate timecodeInSeconds 0 0)

/-! ### FCPXML generator (davinci.ts, lines 57–169) -/

/-- JavaScript `parseInt(s, 10)`: parse the longest prefix of decimal
digits (after an optional sign, which the table strings never carry);
`none` models `NaN` when no digit is present. -/
def jsParseInt (l : List Char) : Option ℤ :=
  match l.takeWhile isDigitChar with
  | [] => none
  | ds => some ((parseDigits ds : ℤ))

/-- JavaScript `String.prototype.split('/')` on the character list. -/
def splitSlash : List Char → List (List Char)
  | [] => [[]]
  | c :: cs =>
    if c == '/' then [] :: splitSlash cs
    else
      match splitSlash cs with
      | [] => [[c]]
      | f :: rest => (c :: f) :: rest

/-- The `[numerator, denominator]` destructuring in `generateFCPXML`
(davinci.ts, lines 116–118): split the frame-duration string on `/` and
`parseInt` both halves.  Every table entry parses to two integers; the
`(0, 0)` branch is unreachable for them (in JavaScript it would be `NaN`). -/
def frameRateToFrameDurationParts (frameRate : ℚ) : ℤ × ℤ :=
  match (splitSlash (frameRateToFrameDuration frameRate).data).map jsParseInt with
  | some n :: some d :: _ => (n, d)
  | _ => (0, 0)

/-- One `asset-clip` element of the FCPXML spine: the numeric attribute
payload (`offset`, `duration`, `start`, all in rational units over the
shared denominator). -/
structure SpineClip where
  offset : ℤ
  duration : ℤ
  start : ℤ
deriving DecidableEq, Repr

/-- The spine-building loop of `generateFCPXML` (davinci.ts, lines
143–166): state-passing form of the `forEach`, carrying the running
`offset`.  For each clip, `start` and `end` are
`numerator * Math.floor((timecodeInSeconds + bound) * frameRate)` and
`duration = end - start`; `offset` advances by `duration`. -/
def spineAux (frameRate timecodeInSeconds : ℚ) (numerator : ℤ) :
    List Clip → ℤ → List SpineClip
  | [], _ => []
  | clip :: rest, offset =>
    let start := numerator * ⌊(timecodeInSeconds + clip.start) * frameRate⌋
    let «end» := numerator * ⌊(timecodeInSeconds + clip.«end») * frameRate⌋
    let duration := «end» - start
    ⟨offset, duration, start⟩ ::
      spineAux frameRate timecodeInSeconds numerator rest (offset + duration)

/-- The FCPXML spine for a clip list: the loop of `generateFCPXML` started
with `offset = 0`. -/
def fcpxmlSpine (clips : List Clip) (frameRate timecodeInSeconds : ℚ)
    (numerator : ℤ) : List SpineClip :=
  spineAux frameRate timecodeInSeconds numerator clips 0

/-- The FCPXML document tree built by `generateFCPXML` (davinci.ts, lines
57–169), up to serialization: the numeric attribute payloads of the
`format` resource, the single `asset` resource, and the spine.  The
`js2xml` serialization and the fixed string attributes (canvas size,
`tcFormat`, lane, …) live in the external `xml-js` collaborator and the
literal template; the format-name string renders a JavaScript float and is
kept as its rational value `formatRate = Math.round(frameRate*100)/100`. -/
structure FcpxmlDoc where
  formatRate : ℚ
  frameDuration : String
  denominator : ℤ
  assetStart : ℤ
  assetDuration : ℤ
  assetSrc : String
  eventName : String
  projectName : String
  spine : List SpineClip
deriving DecidableEq, Repr

/-- `generateFCPXML` (davinci.ts, lines 57–169) as a document value. -/
def generateFCPXML (pathToSource sourceClipName : String) (sourceDuration : ℚ)
    (clips : List Clip) (frameRate timecodeInSeconds : ℚ) : FcpxmlDoc :=
  let parts := frameRateToFrameDurationParts frameRate
  let numerator := parts.1
  let denominator := parts.2
  { formatRate := (jsRound (frameRate * 100) : ℚ) / 100
    frameDuration := frameRateToFrameDuration frameRate
    denominator := denominator
    assetStart := numerator * ⌊timecodeInSeconds * frameRate⌋
    assetDuration := numerator * ⌊sourceDuration * frameRate⌋
    assetSrc := "file://" ++ pathToSource
    eventName := "TurboCut " ++ sourceClipName
    projectName := "TurboCut " ++ sourceClipName
    spine := fcpxmlSpine clips frameRate timecodeInSeconds numerator }

/-! ### Start-timecode resolver (davinci.ts, lines 219–247) -/

/-- The tag record of an ffprobe stream or format (`tags.timecode`). -/
structure ProbeTags where
  timecode : Option String
deriving DecidableEq, Repr

/-- One ffprobe stream: codec type, optional tags, optional start time.
`start_time` is carried as the string ffprobe reports. -/
structure ProbeStream where
  codec_type : Option String
  tags : Option ProbeTags
  start_time : Option String
deriving DecidableEq, Repr

/-- The ffprobe format record: optional tags. -/
structure ProbeFormat where
  tags : Option ProbeTags
deriving DecidableEq, Repr

/-- The ffprobe result consumed by `getStartTimecode`. -/
structure ProbeData where
  streams : List ProbeStream
  format : ProbeFormat
deriving DecidableEq, Repr

/-- JavaScript `a || b` where `a` is an optional string: falsy means
absent (`undefined`) or empty. -/
def jsOrString (a : Option String) (b : String) : String :=
  match a with
  | some s => if s = "" then b else s
  | none => b

/-- The `streams.find(s => s.codec_type === 'video')` lookup. -/
def videoStream (probeData : ProbeData) : Option ProbeStream :=
  probeData.streams.find? (fun s => s.codec_type = some "video")

/-- The `streams.find(s => s.codec_type === 'data')` lookup. -/
def qtStream (probeData : ProbeData) : Option ProbeStream :=
  probeData.streams.find? (fun s => s.codec_type = some "data")

/-- `probeData.format.tags?.timecode`. -/
def startTimecodeFormat (probeData : ProbeData) : Option String :=
  probeData.format.tags.bind (fun t => t.timecode)

/-- `videoStream?.tags?.timecode`. -/
def startTimecodeStream (probeData : ProbeData) : Option String :=
  (videoStream probeData).bind (fun s => s.tags.bind (fun t => t.timecode))

/-- `qtStream?.tags?.timecode`. -/
def startTimecodeQt (probeData : ProbeData) : Option String :=
  (qtStream probeData).bind (fun s => s.tags.bind (fun t => t.timecode))

/-- `videoStream?.start_time`. -/
def startTimecodeStreamStart (probeData : ProbeData) : Option String :=
  (videoStream probeData).bind (fun s => s.start_time)

/-- `getStartTimecode` (davinci.ts, lines 219–247), after the probe has
returned: the `||` fallback chain over the four candidate sources with
literal default `'00:00:00:00'`. -/
def getStartTimecode (probeData : ProbeData) : String :=
  jsOrString (startTimecodeFormat probeData)
    (jsOrString (startTimecodeStream probeData)
      (jsOrString (startTimecodeQt probeData)
        (jsOrString (startTimecodeStreamStart probeData) "00:00:00:00")))

/-! ### Export orchestrators (davinci.ts, lines 249–328)

The Electron dialog, the ffprobe call, and the filesystem are external
collaborators; the orchestrators are embedded as pure functions of the
dialog result and the probe data, returning the boolean result together
with the list of filesystem calls they issue. -/

/-- The result of `dialog.showSaveDialog`. -/
structure SaveDialogResult where
  canceled : Bool
  filePath : Option String
deriving DecidableEq, Repr

/-- A filesystem call issued by an orchestrator: `mkdir(path)` or
`writeFile(path, contents)` (contents for the FCPXML path is the document
tree, serialized by the external `xml-js`). -/
inductive FsCall where
  | mkdir (path : String)
  | writeFileText (path : String) (contents : String)
  | writeFileXml (path : String) (contents : FcpxmlDoc)
deriving DecidableEq, Repr

/-- The start frame the orchestrators derive from the resolved timecode:
`timecodeToFrames(startTimecode, frameRate)`.  An unparseable tag would be
`NaN` in JavaScript and poison the arithmetic downstream; that path is
outside the integer embedding and is represented by defaulting to 0
(none of the theorems below depend on it). -/
def orchestratorStartFrame (startTimecode : String) (frameRate : ℚ) : ℤ :=
  (timecodeToFrames startTimecode frameRate).getD 0

/-- `createFCPXML` (davinci.ts, lines 249–292): on cancellation (or no
chosen path) return `false` with no filesystem calls; otherwise resolve
the start timecode, generate the document, `mkdir` the bundle directory
and write `Info.fcpxml` inside it, returning `true`. -/
def createFCPXML (title : String) (clips : List Clip) (videoInfo : VideoInfo)
    (clipName : String) (frameRate : ℚ) (dialogResult : SaveDialogResult)
    (probeData : ProbeData) : Bool × List FsCall :=
  if dialogResult.canceled then (false, [])
  else
    match dialogResult.filePath with
    | none => (false, [])
    | some filePath =>
      let startTimecode := getStartTimecode probeData
      let startFrame := orchestratorStartFrame startTimecode frameRate
      let startTimecodeInSeconds := framesToSeconds startFrame frameRate
      let xml := generateFCPXML videoInfo.path clipName videoInfo.duration
        clips frameRate startTimecodeInSeconds
      (true, [FsCall.mkdir filePath,
              FsCall.writeFileXml (filePath ++ "/Info.fcpxml") xml])

/-- `createEDL` (davinci.ts, lines 294–328): on cancellation (or no chosen
path) return `false` with no filesystem calls; otherwise resolve the start
timecode and write the EDL generated with the fixed title
`'Silence Removed'` (the `title` argument only labels the save dialog). -/
def createEDL (title : String) (clips : List Clip) (videoInfo : VideoInfo)
    (clipName : String) (frameRate : ℚ) (dialogResult : SaveDialogResult)
    (probeData : ProbeData) : Bool × List FsCall :=
  if dialogResult.canceled then (false, [])
  else
    match dialogResult.filePath with
    | none => (false, [])
    | some filePath =>
      let startTimecode := getStartTimecode probeData
      let startFrame := orchestratorStartFrame startTimecode frameRate
      let startTimecodeInSeconds := framesToSeconds startFrame frameRate
      let edl := generateEDL "Silence Removed" clipName clips frameRate
        startTimecodeInSeconds
      (true, [FsCall.writeFileText filePath edl])

/-! ### Analysis helpers and spec-side definitions -/

/-- The numeric payload of `generateEDL`'s loop: for each clip, the
0-based index and the four frame counts (`srcStart`, `srcEnd`, `recStart`,
`recEnd`) the loop computes, with the same cursor threading as
`edlRecordList`. -/
def edlWalk : List Clip → ℚ → ℚ → ℕ → ℤ → List (ℕ × ℤ × ℤ × ℤ × ℤ)
  | [], _, _, _, _ => []
  | clip :: rest, frameRate, timecodeInSeconds, index, recordStartFrames =>
    (index,
      srcStartFrames clip timecodeInSeconds frameRate,
      srcEndFrames clip timecodeInSeconds frameRate,
      recordStartFrames,
      recEndFrames clip recordStartFrames frameRate) ::
      edlWalk rest frameRate timecodeInSeconds (index + 1)
        (recEndFrames clip recordStartFrames frameRate)

/-- The regex `^\d{2}:\d{2}:\d{2}:\d{2}$` as a decidable check on the
character list of a string. -/
def matchesTimecodePattern (s : String) : Bool :=
  match s.data with
  | [d1, d2, c1, d3, d4, c2, d5, d6, c3, d7, d8] =>
    isDigitChar d1 && isDigitChar d2 && (c1 == ':') &&
      isDigitChar d3 && isDigitChar d4 && (c2 == ':') &&
      isDigitChar d5 && isDigitChar d6 && (c3 == ':') &&
      isDigitChar d7 && isDigitChar d8
  | _ => false

/-- A candidate value of the `||` chain is falsy in JavaScript exactly
when it is `undefined` or the empty string. -/
def jsFalsy (a : Option String) : Prop := a = none ∨ a = some ""

/-- The scaled duration `end - start` computed for a clip in the spine
loop of `generateFCPXML`. -/
def spineClipDuration (clip : Clip) (frameRate timecodeInSeconds : ℚ)
    (numerator : ℤ) : ℤ :=
  numerator * ⌊(timecodeInSeconds + clip.«end») * frameRate⌋ -
    numerator * ⌊(timecodeInSeconds + clip.start) * frameRate⌋

/-- Follows the spec's words (claim C2), for comparison with the source:
`srcStart = floor((clip.start + offset) * fps)` with
`fps = round(frameRate)`. -/
def specSrcStartFrames (clip : Clip) (timecodeInSeconds frameRate : ℚ) : ℤ :=
  ⌊(clip.start + timecodeInSeconds) * (jsRound frameRate : ℚ)⌋

/-- Follows the spec's words (claim C2), for comparison with the source:
the XML per-clip start frame count scaled with `fps = round(frameRate)`. -/
def specXmlClipStart (clip : Clip) (timecodeInSeconds frameRate : ℚ)
    (numerator : ℤ) : ℤ :=
  numerator * ⌊(timecodeInSeconds + clip.start) * (jsRound frameRate : ℚ)⌋

/-! ### Lemmas on digit rendering and parsing -/

theorem natDigitChar_toNat {d : ℕ} (h : d < 10) : (natDigitChar d).toNat = 48 + d := by
  interval_cases d <;> decide

theorem isDigitChar_natDigitChar {d : ℕ} (h : d < 10) :
    isDigitChar (natDigitChar d) = true := by
  simp only [isDigitChar, natDigitChar_toNat h, Bool.and_eq_true, decide_eq_true_eq]
  omega

theorem digitVal_natDigitChar {d : ℕ} (h : d < 10) : digitVal (natDigitChar d) = d := by
  simp [digitVal, natDigitChar_toNat h]

theorem ne_dash_of_isDigitChar {c : Char} (h : isDigitChar c = true) : c ≠ '-' := by
  intro hc
  subst hc
  exact absurd h (by decide)

theorem isTcSep_eq_false_of_isDigitChar {c : Char} (h : isDigitChar c = true) :
    isTcSep c = false := by
  simp only [isTcSep, Bool.or_eq_false_iff, beq_eq_false_iff_ne, ne_eq]
  constructor
  · intro hc; subst hc; exact absurd h (by decide)
  · intro hc; subst hc; exact absurd h (by decide)

theorem natToDigitsCore_fuel {f1 f2 n : ℕ} (acc : List Char)
    (h1 : n < f1) (h2 : n < f2) :
    natToDigitsCore f1 n acc = natToDigitsCore f2 n acc := by
  induction f1 generalizing f2 n acc with
  | zero => omega
  | succ f ih =>
    cases f2 with
    | zero => omega
    | succ g =>
      simp only [natToDigitsCore]
      by_cases h10 : n < 10
      · simp [h10]
      · have hd : n / 10 < n := Nat.div_lt_self (by omega) (by omega)
        simp only [h10, if_false]
        exact ih _ (by omega) (by omega)

theorem natToDigitsCore_acc {f n : ℕ} (acc : List Char) (h : n < f) :
    natToDigitsCore f n acc = natToDigitsCore f n [] ++ acc := by
  induction f generalizing n acc with
  | zero => omega
  | succ g ih =>
    simp only [natToDigitsCore]
    by_cases h10 : n < 10
    · simp [h10]
    · have hd : n / 10 < n := Nat.div_lt_self (by omega) (by omega)
      simp only [h10, if_false]
      rw [ih _ (by omega), ih ([natDigitChar (n % 10)]) (by omega),
        List.append_assoc, List.singleton_append]

theorem natDigits_of_lt {n : ℕ} (h : n < 10) : natDigits n = [natDigitChar n] := by
  simp [natDigits, natToDigitsCore, h]

theorem natDigits_of_ge {n : ℕ} (h : 10 ≤ n) :
    natDigits n = natDigits (n / 10) ++ [natDigitChar (n % 10)] := by
  have hd : n / 10 < n := Nat.div_lt_self (by omega) (by omega)
  have step : natDigits n = natToDigitsCore n (n / 10) [natDigitChar (n % 10)] := by
    simp [natDigits, natToDigitsCore, Nat.not_lt.2 h]
  rw [step, natToDigitsCore_fuel _ hd (Nat.lt_succ_self _),
    natToDigitsCore_acc _ (Nat.lt_succ_self _)]
  rfl

theorem natDigits_ne_nil (n : ℕ) : natDigits n ≠ [] := by
  by_cases h : n < 10
  · simp [natDigits_of_lt h]
  · rw [natDigits_of_ge (by omega)]
    simp

theorem natDigits_all_digit (n : ℕ) : ∀ c ∈ natDigits n, isDigitChar c = true := by
  induction n using Nat.strong_induction_on with
  | _ n ih =>
    by_cases h : n < 10
    · rw [natDigits_of_lt h]
      intro c hc
      rw [List.mem_singleton.1 hc]
      exact isDigitChar_natDigitChar h
    · rw [natDigits_of_ge (by omega)]
      intro c hc
      rcases List.mem_append.1 hc with h1 | h2
      · exact ih (n / 10) (Nat.div_lt_self (by omega) (by omega)) c h1
      · rw [List.mem_singleton.1 h2]
        exact isDigitChar_natDigitChar (Nat.mod_lt _ (by omega))

theorem foldl_natDigits (n : ℕ) :
    ∀ a, (natDigits n).foldl (fun a c => 10 * a + digitVal c) a =
      a * 10 ^ (natDigits n).length + n := by
  induction n using Nat.strong_induction_on with
  | _ n ih =>
    intro a
    by_cases h : n < 10
    · simp [natDigits_of_lt h, digitVal_natDigitChar h]
      ring
    · rw [natDigits_of_ge (by omega), List.foldl_append,
        ih (n / 10) (Nat.div_lt_self (by omega) (by omega))]
      simp only [List.foldl_cons, List.foldl_nil, List.length_append,
        List.length_singleton]
      rw [digitVal_natDigitChar (Nat.mod_lt _ (by omega)), pow_succ, ← mul_assoc]
      have hdm : 10 * (n / 10) + n % 10 = n := Nat.div_add_mod n 10
      generalize a * 10 ^ (natDigits (n / 10)).length = X
      omega

theorem parseDigits_natDigits (n : ℕ) : parseDigits (natDigits n) = n := by
  have := foldl_natDigits n 0
  simpa [parseDigits] using this

theorem parseDigits_cons_zero (l : List Char) :
    parseDigits ('0' :: l) = parseDigits l := by
  simp [parseDigits, digitVal]

theorem parseDigits_jsPadStart (l : List Char) (w : ℕ) :
    parseDigits (jsPadStart l w '0') = parseDigits l := by
  unfold jsPadStart
  generalize w - l.length = k
  induction k with
  | zero => rfl
  | succ k ih =>
    rw [List.replicate_succ, List.cons_append, parseDigits_cons_zero]
    exact ih

theorem jsNumber_digits {l : List Char} (hne : l ≠ [])
    (hd : ∀ c ∈ l, isDigitChar c = true) : jsNumber l = some ((parseDigits l : ℤ)) := by
  cases l with
  | nil => exact absurd rfl hne
  | cons c rest =>
    have hc : isDigitChar c = true := hd c (List.mem_cons_self c rest)
    have hall : (c :: rest).all isDigitChar = true := by
      rw [List.all_eq_true]; exact hd
    simp [jsNumber, ne_dash_of_isDigitChar hc, hall]

/-! ### Lemmas on field splitting and the timecode round trip -/

theorem splitFields_no_sep {l : List Char} (h : ∀ c ∈ l, isTcSep c = false) :
    splitFields l = [l] := by
  induction l with
  | nil => rfl
  | cons c cs ih =>
    have hc := h c (List.mem_cons_self c cs)
    rw [splitFields, if_neg (by simp [hc]),
      ih (fun x hx => h x (List.mem_cons_of_mem _ hx))]

theorem splitFields_append {l1 : List Char} (l2 : List Char)
    (h : ∀ c ∈ l1, isTcSep c = false) :
    splitFields (l1 ++ ':' :: l2) = l1 :: splitFields l2 := by
  induction l1 with
  | nil =>
    rw [List.nil_append, splitFields, if_pos (by decide)]
  | cons c cs ih =>
    have hc := h c (List.mem_cons_self c cs)
    rw [List.cons_append, splitFields, if_neg (by simp [hc]),
      ih (fun x hx => h x (List.mem_cons_of_mem _ hx))]

theorem jsPadStart_zero_all_digit (v : ℕ) :
    ∀ c ∈ jsPadStart (natDigits v) 2 '0', isDigitChar c = true := by
  intro c hc
  unfold jsPadStart at hc
  rcases List.mem_append.1 hc with h | h
  · rw [List.eq_of_mem_replicate h]; decide
  · exact natDigits_all_digit v c h

theorem jsPadStart_no_sep (v : ℕ) :
    ∀ c ∈ jsPadStart (natDigits v) 2 '0', isTcSep c = false :=
  fun c hc => isTcSep_eq_false_of_isDigitChar (jsPadStart_zero_all_digit v c hc)

theorem jsPadStart_ne_nil (v : ℕ) : jsPadStart (natDigits v) 2 '0' ≠ [] := by
  unfold jsPadStart
  simp [natDigits_ne_nil v]

theorem jsNumber_field (v : ℕ) :
    jsNumber (jsPadStart (natDigits v) 2 '0') = some ((v : ℤ)) := by
  rw [jsNumber_digits (jsPadStart_ne_nil v) (jsPadStart_zero_all_digit v),
    parseDigits_jsPadStart, parseDigits_natDigits]

theorem fdiv_natCast (a b : ℕ) : Int.fdiv (a : ℤ) (b : ℤ) = ((a / b : ℕ) : ℤ) :=
  (Int.ofNat_fdiv a b).symm

theorem tmod_natCast (a b : ℕ) : Int.tmod (a : ℤ) (b : ℤ) = ((a % b : ℕ) : ℤ) :=
  (Int.ofNat_tmod a b).symm

theorem intToChars_natCast (m : ℕ) : intToChars (m : ℤ) = natDigits m := by
  rw [intToChars, if_neg (by exact_mod_cast Int.not_lt.2 (Int.natCast_nonneg m))]
  norm_num

/-- The four rounded frame rates of the supported table. -/
theorem jsRound_supported :
    jsRound 23.976 = 24 ∧ jsRound 24 = 24 ∧ jsRound 25 = 25 ∧
      jsRound 29.97 = 30 ∧ jsRound 30 = 30 ∧ jsRound 50 = 50 ∧
      jsRound 59.94 = 60 ∧ jsRound 60 = 60 := by
  norm_num [jsRound]

/-- `framesToTimecodeFps` on a non-negative frame count and rate, in terms
of the `Nat` base-`fps` decomposition of the frame count. -/
theorem framesToTimecodeFps_natCast (n k : ℕ) :
    framesToTimecodeFps (n : ℤ) (k : ℤ) = String.mk
      (jsPadStart (natDigits (n / (3600 * k))) 2 '0' ++ ':' ::
        (jsPadStart (natDigits (n % (3600 * k) / (60 * k))) 2 '0' ++ ':' ::
          (jsPadStart (natDigits (n % (3600 * k) % (60 * k) / k)) 2 '0' ++ ':' ::
            jsPadStart (natDigits (n % (3600 * k) % (60 * k) % k)) 2 '0'))) := by
  have e1 : (3600 : ℤ) * (k : ℤ) = ((3600 * k : ℕ) : ℤ) := by push_cast; ring
  have e2 : (60 : ℤ) * (k : ℤ) = ((60 * k : ℕ) : ℤ) := by push_cast; ring
  simp only [framesToTimecodeFps, e1, e2, fdiv_natCast, tmod_natCast,
    intToChars_natCast]

/-- The round trip holds for any non-negative frame count as soon as the
rounded frame rate is a natural number. -/
theorem timecode_roundtrip_aux (n k : ℕ) (r : ℚ) (hk : jsRound r = (k : ℤ)) :
    timecodeToFrames (framesToTimecode (n : ℤ) r) r = some ((n : ℤ)) := by
  rw [framesToTimecode, hk, framesToTimecodeFps_natCast n k]
  set h := n / (3600 * k) with hh
  set m := n % (3600 * k) / (60 * k) with hm
  set s := n % (3600 * k) % (60 * k) / k with hs
  set fr := n % (3600 * k) % (60 * k) % k with hfr
  have hsplit :
      splitFields
        (jsPadStart (natDigits h) 2 '0' ++ ':' ::
          (jsPadStart (natDigits m) 2 '0' ++ ':' ::
            (jsPadStart (natDigits s) 2 '0' ++ ':' ::
              jsPadStart (natDigits fr) 2 '0'))) =
        [jsPadStart (natDigits h) 2 '0', jsPadStart (natDigits m) 2 '0',
          jsPadStart (natDigits s) 2 '0', jsPadStart (natDigits fr) 2 '0'] := by
    rw [splitFields_append _ (jsPadStart_no_sep h),
      splitFields_append _ (jsPadStart_no_sep m),
      splitFields_append _ (jsPadStart_no_sep s),
      splitFields_no_sep (jsPadStart_no_sep fr)]
  simp only [timecodeToFrames, hsplit, List.map_cons, List.map_nil,
    jsNumber_field, hk]
  congr 1
  have d1 : 3600 * k * (n / (3600 * k)) + n % (3600 * k) = n :=
    Nat.div_add_mod n (3600 * k)
  have d2 : 60 * k * (n % (3600 * k) / (60 * k)) + n % (3600 * k) % (60 * k) =
      n % (3600 * k) := Nat.div_add_mod _ _
  have d3 : k * (n % (3600 * k) % (60 * k) / k) + n % (3600 * k) % (60 * k) % k =
      n % (3600 * k) % (60 * k) := Nat.div_add_mod _ _
  rw [← hh] at d1
  rw [← hm, ← hs, ← hfr] at *
  zify at d1 d2 d3
  linear_combination d1 + d2 + d3

/-- C1: for every non-negative integer frame count `f` and every supported
frame rate `r`, `timecodeToFrames (framesToTimecode f r) r` returns `f`. -/
theorem claim1_timecode_roundtrip (f : ℤ) (r : ℚ) (hf : 0 ≤ f)
    (hr : r ∈ supportedRates) :
    timecodeToFrames (framesToTimecode f r) r = some f := by
  obtain ⟨n, rfl⟩ := Int.eq_ofNat_of_zero_le hf
  fin_cases hr
  · exact timecode_roundtrip_aux n 24 _ jsRound_supported.1
  · exact timecode_roundtrip_aux n 24 _ jsRound_supported.2.1
  · exact timecode_roundtrip_aux n 25 _ jsRound_supported.2.2.1
  · exact timecode_roundtrip_aux n 30 _ jsRound_supported.2.2.2.1
  · exact timecode_roundtrip_aux n 30 _ jsRound_supported.2.2.2.2.1
  · exact timecode_roundtrip_aux n 50 _ jsRound_supported.2.2.2.2.2.1
  · exact timecode_roundtrip_aux n 60 _ jsRound_supported.2.2.2.2.2.2.1
  · exact timecode_roundtrip_aux n 60 _ jsRound_supported.2.2.2.2.2.2.2

/-- Witness for C1: the round trip at `f = 100`, `r = 29.97`. -/
theorem claim1_timecode_roundtrip_witness :
    timecodeToFrames (framesToTimecode 100 29.97) 29.97 = some 100 :=
  claim1_timecode_roundtrip 100 29.97 (by norm_num)
    (by norm_num [supportedRates])

/-! ### Shape of the timecode string (claims C7 and C8) -/

theorem string_data_mk (l : List Char) : (String.mk l).data = l := rfl

/-- A value below 100 renders, after padding, as exactly two digit
characters. -/
theorem jsPadStart_two_digits {v : ℕ} (h : v < 100) :
    ∃ a b, jsPadStart (natDigits v) 2 '0' = [a, b] ∧
      isDigitChar a = true ∧ isDigitChar b = true := by
  by_cases h10 : v < 10
  · refine ⟨'0', natDigitChar v, ?_, by decide, isDigitChar_natDigitChar h10⟩
    rw [natDigits_of_lt h10]
    rfl
  · have hq : v / 10 < 10 := by omega
    refine ⟨natDigitChar (v / 10), natDigitChar (v % 10), ?_,
      isDigitChar_natDigitChar hq, isDigitChar_natDigitChar (Nat.mod_lt _ (by omega))⟩
    rw [natDigits_of_ge (by omega), natDigits_of_lt hq]
    rfl

/-- For a frame count below 100 hours (in base `k`, with `0 < k ≤ 60`),
the rendered timecode matches `^\d{2}:\d{2}:\d{2}:\d{2}$`. -/
theorem matchesTimecodePattern_aux (n k : ℕ) (hk0 : 0 < k) (hk60 : k ≤ 60)
    (hn : n < 360000 * k) :
    matchesTimecodePattern (framesToTimecodeFps (n : ℤ) (k : ℤ)) = true := by
  rw [framesToTimecodeFps_natCast n k]
  have hA : 0 < 3600 * k := by omega
  have hB : 0 < 60 * k := by omega
  have hmodA : n % (3600 * k) < 3600 * k := Nat.mod_lt _ hA
  have hmodB : n % (3600 * k) % (60 * k) < 60 * k := Nat.mod_lt _ hB
  have hh : n / (3600 * k) < 100 := by
    rw [Nat.div_lt_iff_lt_mul hA]; omega
  have hm : n % (3600 * k) / (60 * k) < 100 := by
    rw [Nat.div_lt_iff_lt_mul hB]; omega
  have hs : n % (3600 * k) % (60 * k) / k < 100 := by
    rw [Nat.div_lt_iff_lt_mul hk0]; omega
  have hf : n % (3600 * k) % (60 * k) % k < 100 := by
    have := Nat.mod_lt (n % (3600 * k) % (60 * k)) hk0
    omega
  obtain ⟨a1, b1, e1, d1a, d1b⟩ := jsPadStart_two_digits hh
  obtain ⟨a2, b2, e2, d2a, d2b⟩ := jsPadStart_two_digits hm
  obtain ⟨a3, b3, e3, d3a, d3b⟩ := jsPadStart_two_digits hs
  obtain ⟨a4, b4, e4, d4a, d4b⟩ := jsPadStart_two_digits hf
  rw [e1, e2, e3, e4]
  simp [matchesTimecodePattern, d1a, d1b, d2a, d2b, d3a, d3b, d4a, d4b]

/-- C7 (amended): the output of `framesToTimecode` matches
`^\d{2}:\d{2}:\d{2}:\d{2}$` for every non-negative frame count below 100
hours (`f < 360000 * round(frameRate)`); above that bound the hours field
takes three or more digits. -/
theorem claim7_pattern_amended (f : ℤ) (r : ℚ) (hr : r ∈ supportedRates)
    (hf : 0 ≤ f) (hbound : f < 360000 * jsRound r) :
    matchesTimecodePattern (framesToTimecode f r) = true := by
  obtain ⟨n, rfl⟩ := Int.eq_ofNat_of_zero_le hf
  rw [framesToTimecode]
  fin_cases hr
  · rw [jsRound_supported.1] at hbound ⊢
    exact matchesTimecodePattern_aux n 24 (by norm_num) (by norm_num)
      (by exact_mod_cast hbound)
  · rw [jsRound_supported.2.1] at hbound ⊢
    exact matchesTimecodePattern_aux n 24 (by norm_num) (by norm_num)
      (by exact_mod_cast hbound)
  · rw [jsRound_supported.2.2.1] at hbound ⊢
    exact matchesTimecodePattern_aux n 25 (by norm_num) (by norm_num)
      (by exact_mod_cast hbound)
  · rw [jsRound_supported.2.2.2.1] at hbound ⊢
    exact matchesTimecodePattern_aux n 30 (by norm_num) (by norm_num)
      (by exact_mod_cast hbound)
  · rw [jsRound_supported.2.2.2.2.1] at hbound ⊢
    exact matchesTimecodePattern_aux n 30 (by norm_num) (by norm_num)
      (by exact_mod_cast hbound)
  · rw [jsRound_supported.2.2.2.2.2.1] at hbound ⊢
    exact matchesTimecodePattern_aux n 50 (by norm_num) (by norm_num)
      (by exact_mod_cast hbound)
  · rw [jsRound_supported.2.2.2.2.2.2.1] at hbound ⊢
    exact matchesTimecodePattern_aux n 60 (by norm_num) (by norm_num)
      (by exact_mod_cast hbound)
  · rw [jsRound_supported.2.2.2.2.2.2.2] at hbound ⊢
    exact matchesTimecodePattern_aux n 60 (by norm_num) (by norm_num)
      (by exact_mod_cast hbound)

/-- Witness for C7 (amended): at `f = 100`, `r = 29.97` the pattern holds. -/
theorem claim7_pattern_amended_witness :
    matchesTimecodePattern (framesToTimecode 100 29.97) = true :=
  claim7_pattern_amended 100 29.97 (by norm_num [supportedRates]) (by norm_num)
    (by rw [jsRound_supported.2.2.2.1]; norm_num)

/-- Counterexample to C7 as stated: at 24 fps, frame count 8640000 is 100
hours, the hours field takes three digits, and the pattern fails. -/
theorem claim7_counterexample :
    framesToTimecode 8640000 24 = "100:00:00:00" ∧
      matchesTimecodePattern (framesToTimecode 8640000 24) = false := by
  rw [framesToTimecode, jsRound_supported.2.1]
  exact ⟨by decide, by decide⟩

/-- For a negative frame count and positive base, the rendered timecode
contains a `'-'` character (the hours field is negative). -/
theorem framesToTimecodeFps_neg_dash (f k : ℤ) (hf : f < 0) (hk : 0 < k) :
    '-' ∈ (framesToTimecodeFps f k).data := by
  have hdiv : Int.fdiv f (3600 * k) < 0 := by
    rw [Int.fdiv_eq_ediv _ (by positivity)]
    exact Int.ediv_neg' hf (by positivity)
  simp only [framesToTimecodeFps, string_data_mk]
  apply List.mem_append_left
  unfold jsPadStart
  apply List.mem_append_right
  rw [intToChars, if_pos hdiv]
  exact List.mem_cons_self _ _

/-- C8 (amended): `framesToTimecode` applies no validation policy to
negative frame counts — neither rejection nor clamping; for every negative
frame count and supported rate the emitted string contains a negative
(`'-'`-signed) field. -/
theorem claim8_no_validation_amended (f : ℤ) (r : ℚ) (hf : f < 0)
    (hr : r ∈ supportedRates) : '-' ∈ (framesToTimecode f r).data := by
  rw [framesToTimecode]
  fin_cases hr
  · rw [jsRound_supported.1]; exact framesToTimecodeFps_neg_dash _ _ hf (by norm_num)
  · rw [jsRound_supported.2.1]; exact framesToTimecodeFps_neg_dash _ _ hf (by norm_num)
  · rw [jsRound_supported.2.2.1]; exact framesToTimecodeFps_neg_dash _ _ hf (by norm_num)
  · rw [jsRound_supported.2.2.2.1]; exact framesToTimecodeFps_neg_dash _ _ hf (by norm_num)
  · rw [jsRound_supported.2.2.2.2.1]; exact framesToTimecodeFps_neg_dash _ _ hf (by norm_num)
  · rw [jsRound_supported.2.2.2.2.2.1]; exact framesToTimecodeFps_neg_dash _ _ hf (by norm_num)
  · rw [jsRound_supported.2.2.2.2.2.2.1]; exact framesToTimecodeFps_neg_dash _ _ hf (by norm_num)
  · rw [jsRound_supported.2.2.2.2.2.2.2]; exact framesToTimecodeFps_neg_dash _ _ hf (by norm_num)

/-- Witness for C8 (amended): at `f = -90`, `r = 30`. -/
theorem claim8_no_validation_amended_witness :
    '-' ∈ (framesToTimecode (-90) 30).data :=
  claim8_no_validation_amended (-90) 30 (by norm_num) (by norm_num [supportedRates])

/-- Counterexample to C8 as stated: `framesToTimecode (-1) 24` emits
`"-1:-1:-1:-1"`, a timecode whose four fields are all negative — the code
neither rejects nor clamps invalid frame counts. -/
theorem claim8_counterexample :
    framesToTimecode (-1) 24 = "-1:-1:-1:-1" ∧
      '-' ∈ (framesToTimecode (-1) 24).data := by
  rw [framesToTimecode, jsRound_supported.2.1]
  exact ⟨by decide, by decide⟩

/-! ### Claim C9: the rational frame-duration table -/

/-- C9: the frame-duration table maps each supported nominal rate to
exactly the listed rational entry — including the unreduced `100/2400`
for 24 fps — and every rate outside the table falls back to the 23.976
entry; the numerator/denominator extraction of `generateFCPXML` parses the
corresponding pairs. -/
theorem claim9_frame_duration_table :
    (frameRateToFrameDuration 23.976 = "1001/24000s" ∧
      frameRateToFrameDurationParts 23.976 = (1001, 24000)) ∧
    (frameRateToFrameDuration 24 = "100/2400s" ∧
      frameRateToFrameDurationParts 24 = (100, 2400)) ∧
    (frameRateToFrameDuration 25 = "1/25s" ∧
      frameRateToFrameDurationParts 25 = (1, 25)) ∧
    (frameRateToFrameDuration 29.97 = "1001/30000s" ∧
      frameRateToFrameDurationParts 29.97 = (1001, 30000)) ∧
    (frameRateToFrameDuration 30 = "1/30s" ∧
      frameRateToFrameDurationParts 30 = (1, 30)) ∧
    (frameRateToFrameDuration 50 = "1/50s" ∧
      frameRateToFrameDurationParts 50 = (1, 50)) ∧
    (frameRateToFrameDuration 59.94 = "1001/60000s" ∧
      frameRateToFrameDurationParts 59.94 = (1001, 60000)) ∧
    (frameRateToFrameDuration 60 = "1/60s" ∧
      frameRateToFrameDurationParts 60 = (1, 60)) ∧
    (∀ r : ℚ, r ∉ supportedRates →
      frameRateToFrameDuration r = "1001/24000s" ∧
        frameRateToFrameDurationParts r = (1001, 24000)) := by
  have h1 : frameRateToFrameDuration 23.976 = "1001/24000s" := by
    norm_num [frameRateToFrameDuration]
  have h2 : frameRateToFrameDuration 24 = "100/2400s" := by
    norm_num [frameRateToFrameDuration]
  have h3 : frameRateToFrameDuration 25 = "1/25s" := by
    norm_num [frameRateToFrameDuration]
  have h4 : frameRateToFrameDuration 29.97 = "1001/30000s" := by
    norm_num [frameRateToFrameDuration]
  have h5 : frameRateToFrameDuration 30 = "1/30s" := by
    norm_num [frameRateToFrameDuration]
  have h6 : frameRateToFrameDuration 50 = "1/50s" := by
    norm_num [frameRateToFrameDuration]
  have h7 : frameRateToFrameDuration 59.94 = "1001/60000s" := by
    norm_num [frameRateToFrameDuration]
  have h8 : frameRateToFrameDuration 60 = "1/60s" := by
    norm_num [frameRateToFrameDuration]
  refine ⟨⟨h1, ?_⟩, ⟨h2, ?_⟩, ⟨h3, ?_⟩, ⟨h4, ?_⟩, ⟨h5, ?_⟩, ⟨h6, ?_⟩, ⟨h7, ?_⟩,
      ⟨h8, ?_⟩, ?_⟩
  · simp only [frameRateToFrameDurationParts, h1]; decide
  · simp only [frameRateToFrameDurationParts, h2]; decide
  · simp only [frameRateToFrameDurationParts, h3]; decide
  · simp only [frameRateToFrameDurationParts, h4]; decide
  · simp only [frameRateToFrameDurationParts, h5]; decide
  · simp only [frameRateToFrameDurationParts, h6]; decide
  · simp only [frameRateToFrameDurationParts, h7]; decide
  · simp only [frameRateToFrameDurationParts, h8]; decide
  · intro r hr
    simp only [supportedRates, List.mem_cons, List.not_mem_nil, or_false,
      not_or] at hr
    obtain ⟨n1, n2, n3, n4, n5, n6, n7, n8⟩ := hr
    have hs : frameRateToFrameDuration r = "1001/24000s" := by
      rw [frameRateToFrameDuration, if_neg n1, if_neg n2, if_neg n3, if_neg n4,
        if_neg n5, if_neg n6, if_neg n7, if_neg n8]
    refine ⟨hs, ?_⟩
    simp only [frameRateToFrameDurationParts, hs]
    decide

/-- Witness for C9: the unsupported rate 48 falls back to the 23.976
entry. -/
theorem claim9_frame_duration_table_witness :
    (48 : ℚ) ∉ supportedRates ∧ frameRateToFrameDuration 48 = "1001/24000s" ∧
      frameRateToFrameDurationParts 48 = (1001, 24000) := by
  have h : (48 : ℚ) ∉ supportedRates := by norm_num [supportedRates]
  exact ⟨h, claim9_frame_duration_table.2.2.2.2.2.2.2.2 48 h⟩

/-! ### Claim C3: the start-timecode fallback chain -/

theorem jsOrString_truthy {a : Option String} {v : String} (h : a = some v)
    (hv : v ≠ "") (b : String) : jsOrString a b = v := by
  subst h
  simp [jsOrString, hv]

theorem jsOrString_falsy {a : Option String} (h : jsFalsy a) (b : String) :
    jsOrString a b = b := by
  rcases h with h | h <;> subst h <;> simp [jsOrString]

/-- C3: `getStartTimecode` resolves the start timecode in strict priority
order — format tag, video-stream tag, data-stream tag, video-stream
`start_time`, literal `'00:00:00:00'` — where the first non-falsy
(present and non-empty) value wins, and with all four sources falsy the
result is exactly `'00:00:00:00'`. -/
theorem claim3_start_timecode_priority (pd : ProbeData) :
    (∀ v, startTimecodeFormat pd = some v → v ≠ "" →
      getStartTimecode pd = v) ∧
    (∀ v, jsFalsy (startTimecodeFormat pd) →
      startTimecodeStream pd = some v → v ≠ "" →
      getStartTimecode pd = v) ∧
    (∀ v, jsFalsy (startTimecodeFormat pd) →
      jsFalsy (startTimecodeStream pd) →
      startTimecodeQt pd = some v → v ≠ "" →
      getStartTimecode pd = v) ∧
    (∀ v, jsFalsy (startTimecodeFormat pd) →
      jsFalsy (startTimecodeStream pd) →
      jsFalsy (startTimecodeQt pd) →
      startTimecodeStreamStart pd = some v → v ≠ "" →
      getStartTimecode pd = v) ∧
    (jsFalsy (startTimecodeFormat pd) →
      jsFalsy (startTimecodeStream pd) →
      jsFalsy (startTimecodeQt pd) →
      jsFalsy (startTimecodeStreamStart pd) →
      getStartTimecode pd = "00:00:00:00") := by
  refine ⟨?_, ?_, ?_, ?_, ?_⟩
  · intro v h hv
    rw [getStartTimecode, jsOrString_truthy h hv]
  · intro v h1 h hv
    rw [getStartTimecode, jsOrString_falsy h1, jsOrString_truthy h hv]
  · intro v h1 h2 h hv
    rw [getStartTimecode, jsOrString_falsy h1, jsOrString_falsy h2,
      jsOrString_truthy h hv]
  · intro v h1 h2 h3 h hv
    rw [getStartTimecode, jsOrString_falsy h1, jsOrString_falsy h2,
      jsOrString_falsy h3, jsOrString_truthy h hv]
  · intro h1 h2 h3 h4
    rw [getStartTimecode, jsOrString_falsy h1, jsOrString_falsy h2,
      jsOrString_falsy h3, jsOrString_falsy h4]

/-- Witness for C3: a probe with no streams and no format tags resolves to
exactly `'00:00:00:00'`. -/
theorem claim3_start_timecode_priority_witness :
    getStartTimecode ⟨[], ⟨none⟩⟩ = "00:00:00:00" :=
  (claim3_start_timecode_priority ⟨[], ⟨none⟩⟩).2.2.2.2
    (Or.inl rfl) (Or.inl rfl) (Or.inl rfl) (Or.inl rfl)

/-! ### Claim C5: spine offsets -/

theorem spineAux_cons (r tc : ℚ) (num : ℤ) (c : Clip) (rest : List Clip)
    (off : ℤ) :
    spineAux r tc num (c :: rest) off =
      ⟨off, spineClipDuration c r tc num, num * ⌊(tc + c.start) * r⌋⟩ ::
        spineAux r tc num rest (off + spineClipDuration c r tc num) := rfl

theorem spineAux_length (clips : List Clip) (r tc : ℚ) (num : ℤ) (off : ℤ) :
    (spineAux r tc num clips off).length = clips.length := by
  induction clips generalizing off with
  | nil => rfl
  | cons c rest ih =>
    rw [spineAux_cons]
    simp [ih]

theorem spineAux_map_duration (clips : List Clip) (r tc : ℚ) (num : ℤ)
    (off : ℤ) :
    (spineAux r tc num clips off).map (fun e => e.duration) =
      clips.map (fun c => spineClipDuration c r tc num) := by
  induction clips generalizing off with
  | nil => rfl
  | cons c rest ih =>
    rw [spineAux_cons]
    simp [ih]

theorem spineAux_getElem_offset (clips : List Clip) (r tc : ℚ) (num : ℤ)
    (off : ℤ) (i : ℕ) (h : i < (spineAux r tc num clips off).length) :
    (spineAux r tc num clips off)[i].offset =
      off + ((clips.map (fun c => spineClipDuration c r tc num)).take i).sum := by
  induction clips generalizing off i with
  | nil => simp [spineAux] at h
  | cons c rest ih =>
    cases i with
    | zero =>
      simp only [spineAux_cons, List.getElem_cons_zero, List.map_cons,
        List.take_zero, List.sum_nil]
      ring
    | succ i =>
      have hb : i < (spineAux r tc num rest
          (off + spineClipDuration c r tc num)).length := by
        have := h
        rw [spineAux_cons, List.length_cons] at this
        omega
      simp only [spineAux_cons, List.getElem_cons_succ]
      rw [ih _ _ hb, List.map_cons, List.take_succ_cons, List.sum_cons]
      ring

theorem spineAux_getElem_duration (clips : List Clip) (r tc : ℚ) (num : ℤ)
    (off : ℤ) (i : ℕ) (h : i < (spineAux r tc num clips off).length)
    (hic : i < clips.length) :
    (spineAux r tc num clips off)[i].duration =
      spineClipDuration clips[i] r tc num := by
  induction clips generalizing off i with
  | nil => simp [spineAux] at h
  | cons c rest ih =>
    cases i with
    | zero => simp [spineAux_cons]
    | succ i =>
      have hb : i < (spineAux r tc num rest
          (off + spineClipDuration c r tc num)).length := by
        have := h
        rw [spineAux_cons, List.length_cons] at this
        omega
      simp only [spineAux_cons, List.getElem_cons_succ]
      exact ih _ _ hb (by simpa using hic)

theorem spineClipDuration_nonneg {c : Clip} (hc : c.start ≤ c.«end»)
    {r tc : ℚ} (hr : 0 ≤ r) {num : ℤ} (hnum : 0 ≤ num) :
    0 ≤ spineClipDuration c r tc num := by
  have hfl : ⌊(tc + c.start) * r⌋ ≤ ⌊(tc + c.«end») * r⌋ :=
    Int.floor_le_floor (mul_le_mul_of_nonneg_right (add_le_add_left hc tc) hr)
  have := mul_le_mul_of_nonneg_left hfl hnum
  unfold spineClipDuration
  omega

theorem sum_take_mono {l : List ℤ} (hl : ∀ x ∈ l, 0 ≤ x) {i j : ℕ}
    (hij : i ≤ j) : (l.take i).sum ≤ (l.take j).sum := by
  have hsplit : l.take j = l.take i ++ (l.take j).drop i := by
    conv_lhs => rw [← List.take_append_drop i (l.take j)]
    rw [List.take_take, Nat.min_eq_left hij]
  rw [hsplit, List.sum_append]
  have hpos : 0 ≤ ((l.take j).drop i).sum :=
    List.sum_nonneg fun x hx =>
      hl x (List.mem_of_mem_take (List.mem_of_mem_drop hx))
  omega

/-- C5: in the FCPXML spine, the first clip reference has offset 0, each
subsequent offset is the previous offset plus the previous scaled
duration, offsets are monotonically non-decreasing (for well-formed clips,
a non-negative rate and numerator), and the final offset plus final
duration equals the sum of all per-clip scaled durations. -/
theorem claim5_spine_invariants (clips : List Clip) (r tc : ℚ) (num : ℤ)
    (hwf : ∀ c ∈ clips, c.start ≤ c.«end») (hr : 0 ≤ r) (hnum : 0 ≤ num) :
    (∀ h : 0 < (fcpxmlSpine clips r tc num).length,
      (fcpxmlSpine clips r tc num)[0].offset = 0) ∧
    (∀ i, ∀ h : i + 1 < (fcpxmlSpine clips r tc num).length,
      (fcpxmlSpine clips r tc num)[i + 1].offset =
        (fcpxmlSpine clips r tc num)[i].offset +
          (fcpxmlSpine clips r tc num)[i].duration) ∧
    (∀ i j, ∀ hij : i ≤ j, ∀ hj : j < (fcpxmlSpine clips r tc num).length,
      (fcpxmlSpine clips r tc num)[i].offset ≤
        (fcpxmlSpine clips r tc num)[j].offset) ∧
    (∀ h : fcpxmlSpine clips r tc num ≠ [],
      ((fcpxmlSpine clips r tc num).getLast h).offset +
        ((fcpxmlSpine clips r tc num).getLast h).duration =
        ((fcpxmlSpine clips r tc num).map (fun e => e.duration)).sum) := by
  have hdur : ∀ x ∈ clips.map (fun c => spineClipDuration c r tc num), 0 ≤ x := by
    intro x hx
    obtain ⟨c, hc, rfl⟩ := List.mem_map.1 hx
    exact spineClipDuration_nonneg (hwf c hc) hr hnum
  suffices hS :
      (∀ h : 0 < (spineAux r tc num clips 0).length,
        (spineAux r tc num clips 0)[0].offset = 0) ∧
      (∀ i, ∀ h : i + 1 < (spineAux r tc num clips 0).length,
        (spineAux r tc num clips 0)[i + 1].offset =
          (spineAux r tc num clips 0)[i].offset +
            (spineAux r tc num clips 0)[i].duration) ∧
      (∀ i j, ∀ hij : i ≤ j, ∀ hj : j < (spineAux r tc num clips 0).length,
        (spineAux r tc num clips 0)[i].offset ≤
          (spineAux r tc num clips 0)[j].offset) ∧
      (∀ h : spineAux r tc num clips 0 ≠ [],
        ((spineAux r tc num clips 0).getLast h).offset +
          ((spineAux r tc num clips 0).getLast h).duration =
          ((spineAux r tc num clips 0).map (fun e => e.duration)).sum) by
    exact hS
  have hlenc := spineAux_length clips r tc num 0
  refine ⟨?_, ?_, ?_, ?_⟩
  · intro h
    rw [spineAux_getElem_offset]
    simp
  · intro i h
    have hic : i < clips.length := by omega
    have hicm : i < (clips.map (fun c => spineClipDuration c r tc num)).length := by
      simpa using hic
    rw [spineAux_getElem_offset, spineAux_getElem_offset,
      spineAux_getElem_duration clips r tc num 0 i (by omega) hic,
      List.sum_take_succ _ i hicm, List.getElem_map]
    ring
  · intro i j hij hj
    rw [spineAux_getElem_offset, spineAux_getElem_offset]
    have := sum_take_mono hdur hij
    omega
  · intro h
    have hlen : 0 < (spineAux r tc num clips 0).length := List.length_pos.2 h
    have hic : (spineAux r tc num clips 0).length - 1 < clips.length := by omega
    have hicm : (spineAux r tc num clips 0).length - 1 <
        (clips.map (fun c => spineClipDuration c r tc num)).length := by
      simpa using hic
    simp only [List.getLast_eq_getElem]
    rw [spineAux_getElem_offset, spineAux_getElem_duration clips r tc num 0 _
        (by omega) hic, spineAux_map_duration, zero_add, ← List.getElem_map
        (f := fun c => spineClipDuration c r tc num) (h := hicm),
      ← List.sum_take_succ _ _ hicm]
    have hfin : (spineAux r tc num clips 0).length - 1 + 1 =
        (clips.map (fun c => spineClipDuration c r tc num)).length := by
      simp only [List.length_map]
      omega
    rw [hfin, List.take_length]

/-- Witness for C5: the spine of two well-formed clips at 30 fps — the
first offset is 0 and the last offset plus duration is the total
duration. -/
theorem claim5_spine_invariants_witness :
    ((fcpxmlSpine [⟨2, 5⟩, ⟨10, 12⟩] 30 0 1).get ⟨0, by decide⟩).offset = 0 ∧
      ((fcpxmlSpine [⟨2, 5⟩, ⟨10, 12⟩] 30 0 1).getLast (by decide)).offset +
        ((fcpxmlSpine [⟨2, 5⟩, ⟨10, 12⟩] 30 0 1).getLast (by decide)).duration =
        ((fcpxmlSpine [⟨2, 5⟩, ⟨10, 12⟩] 30 0 1).map
          (fun e => e.duration)).sum := by
  have hwf : ∀ c ∈ [(⟨2, 5⟩ : Clip), ⟨10, 12⟩], c.start ≤ c.«end» := by
    intro c hc
    simp only [List.mem_cons, List.not_mem_nil, or_false] at hc
    rcases hc with rfl | rfl <;> norm_num
  exact ⟨(claim5_spine_invariants [⟨2, 5⟩, ⟨10, 12⟩] 30 0 1 hwf (by norm_num)
      (by norm_num)).1 (by decide),
    (claim5_spine_invariants [⟨2, 5⟩, ⟨10, 12⟩] 30 0 1 hwf (by norm_num)
      (by norm_num)).2.2.2 (by decide)⟩

/-! ### Claim C2: raw versus rounded frame rate in the generators -/

theorem spineAux_map_start (clips : List Clip) (r tc : ℚ) (num : ℤ)
    (off : ℤ) :
    (spineAux r tc num clips off).map (fun e => e.start) =
      clips.map (fun c => num * ⌊(tc + c.start) * r⌋) := by
  induction clips generalizing off with
  | nil => rfl
  | cons c rest ih =>
    rw [spineAux_cons]
    simp [ih]

/-- Counterexample to C2 as stated: at `frameRate = 29.97` with
`offset = 0` and a clip starting at 2 s, the EDL source-start frame count
is `floor(2 * 29.97) = 59` and the XML start is `1001 * 59 = 59059`,
whereas the spec's rounded-rate formula (`fps = round(29.97) = 30`) gives
60 and 60060: the generators use the raw rational rate. -/
theorem claim2_counterexample :
    srcStartFrames ⟨2, 5⟩ 0 29.97 = 59 ∧
      specSrcStartFrames ⟨2, 5⟩ 0 29.97 = 60 ∧
      (fcpxmlSpine [⟨2, 5⟩] 29.97 0 1001).map (fun e => e.start) = [59059] ∧
      specXmlClipStart ⟨2, 5⟩ 0 29.97 1001 = 60060 := by
  refine ⟨?_, ?_, ?_, ?_⟩
  · norm_num [srcStartFrames]
  · norm_num [specSrcStartFrames, jsRound]
  · rw [fcpxmlSpine, spineAux_map_start]
    norm_num
  · norm_num [specXmlClipStart, jsRound]

/-- C2 (amended): the EDL and XML generators multiply clip boundaries by
the *raw* rational `frameRate` — the EDL records format exactly the frame
counts of `edlWalk` (`srcStart = floor((clip.start + offset) * frameRate)`
and so on), and the XML spine starts are
`numerator * floor((offset + clip.start) * frameRate)`; the rounded rate
`round(frameRate)` enters only through the timecode string conversions. -/
theorem claim2_raw_rate_amended (name : String) (clips : List Clip)
    (r tc : ℚ) (num : ℤ) (i : ℕ) (cur : ℤ) :
    edlRecordList name clips r tc i cur =
      (edlWalk clips r tc i cur).map
        (fun w => edlRecordString name r w.1 w.2.1 w.2.2.1 w.2.2.2.1 w.2.2.2.2) ∧
    (fcpxmlSpine clips r tc num).map (fun e => e.start) =
      clips.map (fun c => num * ⌊(tc + c.start) * r⌋) := by
  constructor
  · induction clips generalizing i cur with
    | nil => rfl
    | cons c rest ih => simp [edlRecordList, edlWalk, ih]
  · exact spineAux_map_start clips r tc num 0

/-! ### Claim C4: malformed clips are not rejected -/

/-- Counterexample to C4 as stated: the malformed clip
`{start := 5, end := 2}` is carried into both outputs — the EDL gets a
full cut record (with a nonsensical negative record-out timecode) and the
XML spine gets an entry with negative duration; nothing is rejected. -/
theorem claim4_counterexample :
    generateEDL "T" "clip" [⟨5, 2⟩] 30 0 =
      "TITLE: T\nFCM: NON-DROP FRAME\n\n001  AX       V     C        00:00:05:00 00:00:02:00 00:00:00:00 -1:-1:-3:00\n* FROM CLIP NAME: clip\n\n" ∧
      fcpxmlSpine [⟨5, 2⟩] 30 0 1 = [⟨0, -90, 150⟩] := by
  constructor
  · have h1 : srcStartFrames ⟨5, 2⟩ 0 30 = 150 := by norm_num [srcStartFrames]
    have h2 : srcEndFrames ⟨5, 2⟩ 0 30 = 60 := by norm_num [srcEndFrames]
    have h3 : recEndFrames ⟨5, 2⟩ 0 30 = -90 := by norm_num [recEndFrames]
    simp only [generateEDL, edlRecordList, edlRecordString, h1, h2, h3,
      framesToTimecode, jsRound_supported.2.2.2.2.1]
    decide
  · rw [fcpxmlSpine, spineAux_cons]
    have hd : spineClipDuration ⟨5, 2⟩ 30 0 1 = -90 := by
      norm_num [spineClipDuration]
    rw [hd]
    norm_num [spineAux]

/-- C4 (amended): neither generator validates or rejects clips — each
deterministically emits exactly one EDL record and one spine entry per
input clip, malformed clips (end ≤ start) included. -/
theorem claim4_no_rejection_amended (name : String) (clips : List Clip)
    (r tc : ℚ) (num : ℤ) (i : ℕ) (cur : ℤ) :
    (edlRecordList name clips r tc i cur).length = clips.length ∧
      (fcpxmlSpine clips r tc num).length = clips.length := by
  constructor
  · induction clips generalizing i cur with
    | nil => rfl
    | cons c rest ih => simp [edlRecordList, ih]
  · exact spineAux_length clips r tc num 0

/-! ### Claim C6: cancellation is a non-error no-op -/

/-- C6: when the user cancels the save dialog, or no path is chosen, both
export entry points return `false` — distinguishable from the `true` of a
completed export — and issue no filesystem calls at all. -/
theorem claim6_cancel_no_write (title : String) (clips : List Clip)
    (videoInfo : VideoInfo) (clipName : String) (frameRate : ℚ)
    (dialogResult : SaveDialogResult) (probeData : ProbeData)
    (hc : dialogResult.canceled = true ∨ dialogResult.filePath = none) :
    createEDL title clips videoInfo clipName frameRate dialogResult
        probeData = (false, []) ∧
      createFCPXML title clips videoInfo clipName frameRate dialogResult
        probeData = (false, []) := by
  cases hd : dialogResult.canceled with
  | true => constructor <;> simp [createEDL, createFCPXML, hd]
  | false =>
    have hn : dialogResult.filePath = none := by
      rcases hc with hc | hc
      · rw [hd] at hc
        exact absurd hc (by simp)
      · exact hc
    constructor <;> simp [createEDL, createFCPXML, hd, hn]

/-- Witness for C6: a cancelled dialog produces `(false, [])` from both
entry points. -/
theorem claim6_cancel_no_write_witness :
    createEDL "Export" [⟨2, 5⟩] ⟨"/v.mp4", 60⟩ "clip" 30 ⟨true, none⟩
        ⟨[], ⟨none⟩⟩ = (false, []) ∧
      createFCPXML "Export" [⟨2, 5⟩] ⟨"/v.mp4", 60⟩ "clip" 30 ⟨true, none⟩
        ⟨[], ⟨none⟩⟩ = (false, []) :=
  claim6_cancel_no_write "Export" [⟨2, 5⟩] ⟨"/v.mp4", 60⟩ "clip" 30
    ⟨true, none⟩ ⟨[], ⟨none⟩⟩ (Or.inl rfl)

/-! ### Claim C10: the EDL title is fixed -/

theorem string_append_assoc (a b c : String) :
    a ++ b ++ c = a ++ (b ++ c) := by
  cases a with
  | mk la =>
    cases b with
    | mk lb =>
      cases c with
      | mk lc =>
        show String.mk ((la ++ lb) ++ lc) = String.mk (la ++ (lb ++ lc))
        rw [List.append_assoc]

/-- C10: the generated EDL is identical for any two `title` arguments (the
parameter only labels the save dialog), and the written document begins
with the fixed header line `TITLE: Silence Removed`. -/
theorem claim10_edl_title_fixed (t1 t2 : String) (clips : List Clip)
    (videoInfo : VideoInfo) (clipName : String) (frameRate : ℚ)
    (dialogResult : SaveDialogResult) (probeData : ProbeData)
    (filePath : String) (hc : dialogResult.canceled = false)
    (hp : dialogResult.filePath = some filePath) :
    createEDL t1 clips videoInfo clipName frameRate dialogResult probeData =
      createEDL t2 clips videoInfo clipName frameRate dialogResult probeData ∧
    ∃ rest,
      createEDL t1 clips videoInfo clipName frameRate dialogResult probeData =
        (true, [FsCall.writeFileText filePath
          ("TITLE: Silence Removed\n" ++ rest)]) := by
  constructor
  · rfl
  · refine ⟨"FCM: NON-DROP FRAME\n\n" ++
      String.join (edlRecordList clipName clips frameRate
        (framesToSeconds
          (orchestratorStartFrame (getStartTimecode probeData) frameRate)
          frameRate) 0 0), ?_⟩
    simp only [createEDL, hc, hp, Bool.false_eq_true, if_false, generateEDL]
    rw [string_append_assoc, string_append_assoc]
    rfl

/-- Witness for C10: with a chosen path, the export writes a document
starting with the fixed title line for any dialog title. -/
theorem claim10_edl_title_fixed_witness :
    createEDL "A" [⟨2, 5⟩] ⟨"/v.mp4", 60⟩ "clip" 30 ⟨false, some "/o.edl"⟩
        ⟨[], ⟨none⟩⟩ =
      createEDL "B" [⟨2, 5⟩] ⟨"/v.mp4", 60⟩ "clip" 30 ⟨false, some "/o.edl"⟩
        ⟨[], ⟨none⟩⟩ ∧
    ∃ rest,
      createEDL "A" [⟨2, 5⟩] ⟨"/v.mp4", 60⟩ "clip" 30 ⟨false, some "/o.edl"⟩
          ⟨[], ⟨none⟩⟩ =
        (true, [FsCall.writeFileText "/o.edl"
          ("TITLE: Silence Removed\n" ++ rest)]) :=
  claim10_edl_title_fixed "A" "B" [⟨2, 5⟩] ⟨"/v.mp4", 60⟩ "clip" 30
    ⟨false, some "/o.edl"⟩ ⟨[], ⟨none⟩⟩ "/o.edl" rfl rfl

end TurboCut
